import Mathlib

set_option maxHeartbeats 1000000

namespace Risk

/-! # Data model

A pandas `DataFrame` is modelled as an ordered association list of named
columns.  A numeric column holds `Option ℚ` cells (`none` models NaN /
missing); an object-dtype column holds `Option String` cells.  Machine
floats are modelled by exact rationals. -/

/-- A column of a pandas DataFrame: numeric dtype (missing cells are `none`,
modelling NaN) or object/text dtype. -/
inductive ColData where
  | numeric (vals : List (Option ℚ))
  | text (vals : List (Option String))
deriving DecidableEq

/-- A pandas DataFrame: an ordered association list of named columns. -/
abbrev DataFrame := List (String × ColData)

/-- Exceptions the pipeline can raise (pandas `KeyError` on a missing column
name, `TypeError` when numeric arithmetic hits an object-dtype column). -/
inductive PipeErr where
  | keyError (col : String)
  | typeError (col : String)
deriving DecidableEq

/-- `df[name]` lookup (first matching column). -/
def getColData : DataFrame → String → Option ColData
  | [], _ => none
  | (m, cd) :: rest, n => if m = n then some cd else getColData rest n

/-- `df[name] = col`: replace the existing column of that name in place,
keeping its position, else append a new column — pandas column assignment. -/
def setCol : DataFrame → String → ColData → DataFrame
  | [], n, cd => [(n, cd)]
  | (m, e) :: rest, n, cd =>
      if m = n then (n, cd) :: rest else (m, e) :: setCol rest n cd

/-- Read a numeric column: a missing name raises `KeyError`, and using an
object-dtype column in numeric arithmetic raises `TypeError`. -/
def getNumE (df : DataFrame) (n : String) : Except PipeErr (List (Option ℚ)) :=
  match getColData df n with
  | some (ColData.numeric vs) => Except.ok vs
  | some (ColData.text _) => Except.error (PipeErr.typeError n)
  | none => Except.error (PipeErr.keyError n)

/-! # `pipeline/feature_engineering.py` -/

/-- Insert into an ascending-sorted list. -/
def insertAsc (x : ℚ) : List ℚ → List ℚ
  | [] => [x]
  | y :: ys => if x ≤ y then x :: y :: ys else y :: insertAsc x ys

/-- Insertion sort, ascending. -/
def sortAsc : List ℚ → List ℚ
  | [] => []
  | x :: xs => insertAsc x (sortAsc xs)

/-- pandas `Series.median()` over the non-null values: the middle element of
the sorted values, or the mean of the two middle elements for an even count;
`none` (NaN) when there are no values. -/
def median (xs : List ℚ) : Option ℚ :=
  let s := sortAsc xs
  let n := s.length
  if n = 0 then none
  else if n % 2 = 1 then s.get? (n / 2)
  else
    match s.get? (n / 2 - 1), s.get? (n / 2) with
    | some a, some b => some ((a + b) / 2)
    | _, _ => none

/-- `series.fillna(series.median())`: every missing cell becomes the median
of the column's own non-null values; when the median is NaN (every cell
missing), `fillna` with NaN is a no-op. -/
def fillnaMedian (vs : List (Option ℚ)) : List (Option ℚ) :=
  match median (vs.filterMap id) with
  | none => vs
  | some m => vs.map (fun v => some (v.getD m))

/-- `handle_missing_values(df)`: `df[col] = df[col].fillna(df[col].median())`
for every numeric-dtype column; object columns pass through unmodified. -/
def handle_missing_values (df : DataFrame) : DataFrame :=
  df.map (fun p =>
    match p with
    | (n, ColData.numeric vs) => (n, ColData.numeric (fillnaMedian vs))
    | (n, ColData.text vs) => (n, ColData.text vs))

/-- One cell of `(series > t).astype(int)`: a NaN comparison is False,
giving 0. -/
def gtFlag (t : ℚ) (v : Option ℚ) : Option ℚ :=
  some (match v with | some q => if t < q then 1 else 0 | none => 0)

/-- One cell of `(series >= t).astype(int)`. -/
def geFlag (t : ℚ) (v : Option ℚ) : Option ℚ :=
  some (match v with | some q => if t ≤ q then 1 else 0 | none => 0)

/-- The denominator `avg_los + 1e-6` of the encounter/LOS ratio
(`feature_engineering.py` line 20). -/
def losDenom (avg_los : ℚ) : ℚ := avg_los + 1 / 1000000

/-- One cell of `df["num_encounters"] / (df["avg_los"] + 1e-6)`: NaN
propagates through elementwise arithmetic.  (In floats a zero denominator
would give ±inf rather than raise; over ℚ that point is `q / 0 = 0` and lies
outside every claim's hypotheses.) -/
def ratioCell (n a : Option ℚ) : Option ℚ :=
  match n, a with
  | some n, some a => some (n / losDenom a)
  | _, _ => none

/-- `add_derived_features(df)`: appends/overwrites the four derived columns,
reading each raw column from the frame as updated so far (the raw and
derived names are distinct, so the reads see the raw data). -/
def add_derived_features (df : DataFrame) : Except PipeErr DataFrame := do
  let cr ← getNumE df "creatinine"
  let df1 := setCol df "high_creatinine" (ColData.numeric (cr.map (gtFlag (3/2))))
  let bp ← getNumE df1 "systolic_bp"
  let df2 := setCol df1 "high_bp" (ColData.numeric (bp.map (geFlag 140)))
  let hr ← getNumE df2 "heart_rate"
  let df3 := setCol df2 "tachycardia" (ColData.numeric (hr.map (geFlag 100)))
  let ne ← getNumE df3 "num_encounters"
  let al ← getNumE df3 "avg_los"
  pure (setCol df3 "encounter_los_ratio" (ColData.numeric (List.zipWith ratioCell ne al)))

/-- `encode_categoricals(df)`: identity in the current scope. -/
def encode_categoricals (df : DataFrame) : DataFrame := df

/-- pandas `Series.mean()` over the non-null values. -/
def meanQ (xs : List ℚ) : ℚ := xs.foldr (· + ·) 0 / (xs.length : ℚ)

/-- `normalize_features(df, exclude)`: z-score each numeric column not in
`exclude`, with `std` standing for pandas `Series.std()` (an external
numeric routine whose value is irrational in general). -/
def normalize_features (std : List ℚ → ℚ) (df : DataFrame) (exclude : List String) :
    DataFrame :=
  df.map (fun p =>
    match p with
    | (n, ColData.numeric vs) =>
        if n ∈ exclude then (n, ColData.numeric vs)
        else
          let nn := vs.filterMap id
          (n, ColData.numeric
            (vs.map (fun v => v.map (fun q => (q - meanQ nn) / (std nn + 1 / 1000000)))))
    | (n, ColData.text vs) => (n, ColData.text vs))

/-- `prepare_features(df, normalize)` at the value level: impute → derive →
encode → (optionally) normalize, on a copy of the input. -/
def prepare_features (std : List ℚ → ℚ) (df : DataFrame) (normalize : Bool) :
    Except PipeErr DataFrame := do
  let df1 := handle_missing_values df
  let df2 ← add_derived_features df1
  let df3 := encode_categoricals df2
  if normalize then
    pure (normalize_features std df3 ["readmitted_30d", "patient_id"])
  else
    pure df3

/-! # Object/heap model for the in-place pandas mutations

Python variables hold references into a heap of DataFrame objects;
`df[col] = …` mutates the referenced object in place, while `df.copy()`
allocates a fresh object. -/

/-- A heap of DataFrame objects, addressed by allocation index. -/
structure Store where
  dfs : List DataFrame
deriving DecidableEq

/-- Dereference. -/
def Store.get (s : Store) (r : ℕ) : DataFrame := s.dfs.getD r []

/-- Overwrite the referenced object in place. -/
def Store.set (s : Store) (r : ℕ) (d : DataFrame) : Store := ⟨s.dfs.set r d⟩

/-- `df.copy()`: allocate a fresh object, returning its reference. -/
def Store.alloc (s : Store) (d : DataFrame) : Store × ℕ :=
  (⟨s.dfs ++ [d]⟩, s.dfs.length)

/-- `handle_missing_values` mutates its argument object in place and
returns the same reference. -/
def handle_missing_values_st (s : Store) (r : ℕ) : Store × ℕ :=
  (s.set r (handle_missing_values (s.get r)), r)

/-- `add_derived_features` mutates its argument object in place and returns
the same reference (or raises). -/
def add_derived_features_st (s : Store) (r : ℕ) : Except PipeErr (Store × ℕ) :=
  match add_derived_features (s.get r) with
  | Except.ok d => Except.ok (s.set r d, r)
  | Except.error e => Except.error e

/-- `encode_categoricals` returns its argument unchanged. -/
def encode_categoricals_st (s : Store) (r : ℕ) : Store × ℕ := (s, r)

/-- `normalize_features` mutates its argument object in place. -/
def normalize_features_st (std : List ℚ → ℚ) (s : Store) (r : ℕ)
    (exclude : List String) : Store × ℕ :=
  (s.set r (normalize_features std (s.get r) exclude), r)

/-- `prepare_features(df, normalize)` at the heap level: `df = df.copy()`
allocates a fresh object and every later step reads and updates that copy
in place; the caller's object is never written. -/
def prepare_features_st (std : List ℚ → ℚ) (s : Store) (r : ℕ) (normalize : Bool) :
    Except PipeErr (Store × ℕ) := do
  let a := s.alloc (s.get r)
  let b := handle_missing_values_st a.1 a.2
  let c ← add_derived_features_st b.1 b.2
  let d := encode_categoricals_st c.1 c.2
  if normalize then
    pure (normalize_features_st std d.1 d.2 ["readmitted_30d", "patient_id"])
  else
    pure d

/-! # `pipeline/monitor/drift.py` -/

/-- `np.histogram`'s base range: the sample's own min/max, widened by ±0.5
when they coincide, and (0, 1) for an empty sample. -/
def histRange (xs : List ℚ) : ℚ × ℚ :=
  match xs with
  | [] => (0, 1)
  | x :: rest =>
      let lo := rest.foldl min x
      let hi := rest.foldl max x
      if lo = hi then (lo - 1/2, hi + 1/2) else (lo, hi)

/-- `np.histogram` bucket counts over `buckets` equal-width buckets spanning
`[lo, hi]`: every bucket is half-open except the last, which is closed;
values outside the range are not counted. -/
def histCounts (xs : List ℚ) (lo hi : ℚ) (buckets : ℕ) : List ℕ :=
  (List.range buckets).map (fun i =>
    let l := lo + i * (hi - lo) / buckets
    let r := lo + (i + 1) * (hi - lo) / buckets
    (xs.filter (fun v =>
      decide (l ≤ v) && (if i + 1 = buckets then decide (v ≤ r) else decide (v < r)))).length)

/-- `psi(expected, actual, buckets)`: bucket edges from the expected sample's
own range, counts for both samples over those edges, smoothed proportions,
and the smoothed-log PSI sum.  `log` stands for `np.log`, an external
numeric routine (only its sign behaviour matters to any claim). -/
def psi (log : ℚ → ℚ) (expected actual : List ℚ) (buckets : ℕ) : ℚ :=
  let lo := (histRange expected).1
  let hi := (histRange expected).2
  let expected_counts := histCounts expected lo hi buckets
  let actual_counts := histCounts actual lo hi buckets
  let expected_percents :=
    expected_counts.map
      (fun c : ℕ => ((c : ℚ) + 1/1000000) / ((expected.length : ℚ) + 1/1000000))
  let actual_percents :=
    actual_counts.map
      (fun c : ℕ => ((c : ℚ) + 1/1000000) / ((actual.length : ℚ) + 1/1000000))
  (List.zipWith (fun e a => (e - a) * log (e / a + 1/1000000))
    expected_percents actual_percents).foldr (· + ·) 0

/-- One row of the drift report. -/
structure DriftEntry where
  ks_stat : ℚ
  ks_pvalue : ℚ
  psi : ℚ
  drift_detected : Bool
deriving DecidableEq

/-- `reference_df.select_dtypes(include=[np.number]).columns`, with each
column's data, in frame order. -/
def numericCols (df : DataFrame) : List (String × List (Option ℚ)) :=
  df.filterMap (fun p =>
    match p with
    | (n, ColData.numeric vs) => some (n, vs)
    | (_, ColData.text _) => none)

/-- The `for col in numeric_cols` loop of `detect_drift`: drop NaNs on both
sides, skip the column when either side is left empty, otherwise record the
KS statistics, the PSI, and the OR-rule verdict.  An exception at any
column aborts the whole call. -/
def driftLoop (ks : List ℚ → List ℚ → ℚ × ℚ) (log : ℚ → ℚ) (current_df : DataFrame) :
    List (String × List (Option ℚ)) → Except PipeErr (List (String × DriftEntry))
  | [] => Except.ok []
  | (col, vs) :: rest => do
      let curRaw ← getNumE current_df col
      let ref := vs.filterMap id
      let cur := curRaw.filterMap id
      let report ← driftLoop ks log current_df rest
      if 0 < ref.length ∧ 0 < cur.length then
        let p := ks ref cur
        let psi_value := psi log ref cur 10
        pure ((col, ⟨p.1, p.2, psi_value, decide (p.2 < 1/20) || decide (psi_value > 1/10)⟩) :: report)
      else
        pure report

/-- `detect_drift(reference_df, current_df)`: `ks` stands for
`scipy.stats.ks_2samp` and `log` for `np.log` (external collaborators).
The JSON round-trip and the file write leave the returned report as built
by the loop. -/
def detect_drift (ks : List ℚ → List ℚ → ℚ × ℚ) (log : ℚ → ℚ)
    (reference_df current_df : DataFrame) : Except PipeErr (List (String × DriftEntry)) :=
  driftLoop ks log current_df (numericCols reference_df)

/-! # Concrete fixtures used by witnesses and counterexamples -/

/-- A stand-in for `scipy.stats.ks_2samp` (external collaborator). -/
def ksStub : List ℚ → List ℚ → ℚ × ℚ := fun _ _ => (1/2, 1/25)

/-- A computable stand-in for `np.log` with the same sign behaviour
(`x - 1` is zero at 1, positive beyond 1, negative below 1). -/
def logStub : ℚ → ℚ := fun x => x - 1

/-- A one-column reference frame with usable data. -/
def refW : DataFrame := [("a", ColData.numeric [some 1, some 2])]

/-- The report `detect_drift` produces on `refW` against itself. -/
def reportW : List (String × DriftEntry) :=
  match detect_drift ksStub logStub refW refW with
  | Except.ok r => r
  | Except.error _ => []

/-- The single entry of `reportW`. -/
def entryW : DriftEntry := (reportW.headD ("", ⟨0, 0, 0, false⟩)).2

/-- Reference frame whose numeric column `a` is absent from `curAbsent`. -/
def refAbsent : DataFrame := [("a", ColData.numeric [some 1])]

/-- A current frame with no columns at all. -/
def curAbsent : DataFrame := []

/-- A reference frame with no numeric columns. -/
def refNoNum : DataFrame := [("name", ColData.text [some "x"])]

/-- A current frame sharing no numeric columns with `refNoNum`. -/
def curNoNum : DataFrame := [("age", ColData.numeric [some 1])]

/-! # Feature Engineer lemmas -/

theorem insertAsc_length (x : ℚ) (l : List ℚ) : (insertAsc x l).length = l.length + 1 := by
  induction l with
  | nil => rfl
  | cons y ys ih =>
    rw [insertAsc]
    by_cases h : x ≤ y
    · rw [if_pos h]
      rfl
    · rw [if_neg h]
      simp [ih]

theorem sortAsc_length (l : List ℚ) : (sortAsc l).length = l.length := by
  induction l with
  | nil => rfl
  | cons x xs ih =>
    rw [sortAsc, insertAsc_length, ih]
    rfl

theorem median_isSome (xs : List ℚ) (h : xs ≠ []) : ∃ m, median xs = some m := by
  have hlen : (sortAsc xs).length = xs.length := sortAsc_length xs
  have hpos : 0 < xs.length := List.length_pos.mpr h
  simp only [median, hlen]
  rw [if_neg (Nat.pos_iff_ne_zero.mp hpos)]
  by_cases hodd : xs.length % 2 = 1
  · rw [if_pos hodd]
    have hidx : xs.length / 2 < (sortAsc xs).length := by
      rw [hlen]
      exact Nat.div_lt_self hpos (by norm_num)
    rw [List.get?_eq_get hidx]
    exact ⟨_, rfl⟩
  · rw [if_neg hodd]
    have h2 : 2 ≤ xs.length := by omega
    have hidx2 : xs.length / 2 < (sortAsc xs).length := by
      rw [hlen]
      exact Nat.div_lt_self hpos (by norm_num)
    have hidx1 : xs.length / 2 - 1 < (sortAsc xs).length := by
      rw [hlen]
      omega
    rw [List.get?_eq_get hidx1, List.get?_eq_get hidx2]
    exact ⟨_, rfl⟩

theorem median_eq_none (xs : List ℚ) (h : median xs = none) : xs = [] := by
  by_contra hne
  obtain ⟨m, hm⟩ := median_isSome xs hne
  rw [h] at hm
  cases hm

theorem filterMap_id_nil_iff (vs : List (Option ℚ)) :
    vs.filterMap id = [] ↔ ∀ v ∈ vs, v = none := by
  induction vs with
  | nil => simp
  | cons v rest ih =>
    cases v with
    | none => simp [ih]
    | some q => simp

theorem getColData_handle (df : DataFrame) (n : String) :
    getColData (handle_missing_values df) n =
      (getColData df n).map (fun cd =>
        match cd with
        | ColData.numeric vs => ColData.numeric (fillnaMedian vs)
        | ColData.text vs => ColData.text vs) := by
  induction df with
  | nil => rfl
  | cons p rest ih =>
    obtain ⟨m, cd⟩ := p
    by_cases h : m = n
    · subst h
      cases cd with
      | numeric vs => simp [handle_missing_values, getColData]
      | text vs => simp [handle_missing_values, getColData]
    · cases cd with
      | numeric vs =>
        simp only [handle_missing_values, List.map_cons, getColData, if_neg h] at ih ⊢
        exact ih
      | text vs =>
        simp only [handle_missing_values, List.map_cons, getColData, if_neg h] at ih ⊢
        exact ih

/-- C5: `handle_missing_values` replaces, in every numeric column, each
missing cell with that same column's median computed from the very table
it received; a column whose cells are all missing is left unchanged with
no error; object-dtype columns pass through unmodified. -/
theorem handle_missing_values_spec (df : DataFrame) (n : String) :
    (∀ vs, getColData df n = some (ColData.numeric vs) →
      ((vs.filterMap id ≠ [] →
         ∃ m, median (vs.filterMap id) = some m ∧
           getColData (handle_missing_values df) n
             = some (ColData.numeric (vs.map (fun v => some (v.getD m))))) ∧
       ((∀ v ∈ vs, v = none) →
         getColData (handle_missing_values df) n = some (ColData.numeric vs)))) ∧
    (∀ ws, getColData df n = some (ColData.text ws) →
      getColData (handle_missing_values df) n = some (ColData.text ws)) := by
  constructor
  · intro vs hvs
    constructor
    · intro hne
      obtain ⟨m, hm⟩ := median_isSome _ hne
      refine ⟨m, hm, ?_⟩
      rw [getColData_handle, hvs]
      simp only [Option.map_some']
      rw [show fillnaMedian vs = vs.map (fun v => some (v.getD m)) from by
        unfold fillnaMedian
        rw [hm]]
    · intro hall
      rw [getColData_handle, hvs]
      simp only [Option.map_some']
      rw [show fillnaMedian vs = vs from by
        unfold fillnaMedian
        rw [show median (vs.filterMap id) = none from by
          rw [(filterMap_id_nil_iff vs).mpr hall]
          rfl]]
  · intro ws hws
    rw [getColData_handle, hws]
    rfl

theorem getColData_setCol_self (df : DataFrame) (n : String) (cd : ColData) :
    getColData (setCol df n cd) n = some cd := by
  induction df with
  | nil => simp [setCol, getColData]
  | cons p rest ih =>
    obtain ⟨m, e⟩ := p
    by_cases h : m = n
    · subst h
      simp [setCol, getColData]
    · simp [setCol, getColData, h, ih]

theorem getColData_setCol_ne (df : DataFrame) (n m : String) (cd : ColData)
    (h : m ≠ n) :
    getColData (setCol df n cd) m = getColData df m := by
  induction df with
  | nil => simp [setCol, getColData, Ne.symm h]
  | cons p rest ih =>
    obtain ⟨k, e⟩ := p
    by_cases hk : k = n
    · subst hk
      simp [setCol, getColData, Ne.symm h]
    · simp [setCol, getColData, hk, ih]

theorem getNumE_setCol_ne (df : DataFrame) (n m : String) (cd : ColData)
    (h : m ≠ n) :
    getNumE (setCol df n cd) m = getNumE df m := by
  unfold getNumE
  rw [getColData_setCol_ne df n m cd h]

theorem setCol_of_getColData (df : DataFrame) (n : String) (cd : ColData)
    (h : getColData df n = some cd) : setCol df n cd = df := by
  induction df with
  | nil => simp [getColData] at h
  | cons p rest ih =>
    obtain ⟨m, e⟩ := p
    by_cases hm : m = n
    · subst hm
      rw [getColData, if_pos rfl] at h
      cases h
      simp [setCol]
    · rw [getColData, if_neg hm] at h
      simp [setCol, hm, ih h]

theorem get?_zipWith_some (f : Option ℚ → Option ℚ → Option ℚ)
    (l1 : List (Option ℚ)) :
    ∀ (l2 : List (Option ℚ)) (i : ℕ) (a b : Option ℚ),
      l1.get? i = some a → l2.get? i = some b →
      (List.zipWith f l1 l2).get? i = some (f a b) := by
  induction l1 with
  | nil => intro l2 i a b h1 _; simp at h1
  | cons x xs ih =>
    intro l2 i a b h1 h2
    cases l2 with
    | nil => simp at h2
    | cons y ys =>
      cases i with
      | zero =>
        simp only [List.get?] at h1 h2
        cases h1
        cases h2
        rfl
      | succ j =>
        simp only [List.get?] at h1 h2
        simpa using ih ys j a b h1 h2

/-- The frame `add_derived_features` builds: the four derived columns set
(in order) from the raw columns' data. -/
theorem add_derived_eq (df : DataFrame) (cr bp hr nenc alos : List (Option ℚ))
    (hcr : getColData df "creatinine" = some (ColData.numeric cr))
    (hbp : getColData df "systolic_bp" = some (ColData.numeric bp))
    (hhr : getColData df "heart_rate" = some (ColData.numeric hr))
    (hne : getColData df "num_encounters" = some (ColData.numeric nenc))
    (hal : getColData df "avg_los" = some (ColData.numeric alos)) :
    add_derived_features df = Except.ok
      (setCol (setCol (setCol
        (setCol df "high_creatinine" (ColData.numeric (cr.map (gtFlag (3/2)))))
        "high_bp" (ColData.numeric (bp.map (geFlag 140))))
        "tachycardia" (ColData.numeric (hr.map (geFlag 100))))
        "encounter_los_ratio" (ColData.numeric (List.zipWith ratioCell nenc alos))) := by
  have h1 : getNumE df "creatinine" = Except.ok cr := by
    unfold getNumE
    rw [hcr]
  have h2 : getNumE (setCol df "high_creatinine"
      (ColData.numeric (cr.map (gtFlag (3/2))))) "systolic_bp" = Except.ok bp := by
    rw [getNumE_setCol_ne _ _ _ _ (by decide)]
    unfold getNumE
    rw [hbp]
  have h3 : getNumE (setCol (setCol df "high_creatinine"
      (ColData.numeric (cr.map (gtFlag (3/2)))))
      "high_bp" (ColData.numeric (bp.map (geFlag 140)))) "heart_rate" = Except.ok hr := by
    rw [getNumE_setCol_ne _ _ _ _ (by decide), getNumE_setCol_ne _ _ _ _ (by decide)]
    unfold getNumE
    rw [hhr]
  have h4 : getNumE (setCol (setCol (setCol df "high_creatinine"
      (ColData.numeric (cr.map (gtFlag (3/2)))))
      "high_bp" (ColData.numeric (bp.map (geFlag 140))))
      "tachycardia" (ColData.numeric (hr.map (geFlag 100)))) "num_encounters"
      = Except.ok nenc := by
    rw [getNumE_setCol_ne _ _ _ _ (by decide), getNumE_setCol_ne _ _ _ _ (by decide),
      getNumE_setCol_ne _ _ _ _ (by decide)]
    unfold getNumE
    rw [hne]
  have h5 : getNumE (setCol (setCol (setCol df "high_creatinine"
      (ColData.numeric (cr.map (gtFlag (3/2)))))
      "high_bp" (ColData.numeric (bp.map (geFlag 140))))
      "tachycardia" (ColData.numeric (hr.map (geFlag 100)))) "avg_los"
      = Except.ok alos := by
    rw [getNumE_setCol_ne _ _ _ _ (by decide), getNumE_setCol_ne _ _ _ _ (by decide),
      getNumE_setCol_ne _ _ _ _ (by decide)]
    unfold getNumE
    rw [hal]
  simp only [add_derived_features, Bind.bind, Except.bind, h1, h2, h3, h4, h5]
  rfl

/-- C6: `add_derived_features` computes, row by row, `high_creatinine = 1`
iff `creatinine > 1.5`, `high_bp = 1` iff `systolic_bp ≥ 140`,
`tachycardia = 1` iff `heart_rate ≥ 100`, and `encounter_los_ratio` as
`num_encounters / (avg_los + 1e-6)`. -/
theorem add_derived_features_spec (df df' : DataFrame)
    (hok : add_derived_features df = Except.ok df')
    (cr bp hr nenc alos : List (Option ℚ))
    (hcr : getColData df "creatinine" = some (ColData.numeric cr))
    (hbp : getColData df "systolic_bp" = some (ColData.numeric bp))
    (hhr : getColData df "heart_rate" = some (ColData.numeric hr))
    (hne : getColData df "num_encounters" = some (ColData.numeric nenc))
    (hal : getColData df "avg_los" = some (ColData.numeric alos)) :
    (getColData df' "high_creatinine" = some (ColData.numeric (cr.map (gtFlag (3/2)))) ∧
     getColData df' "high_bp" = some (ColData.numeric (bp.map (geFlag 140))) ∧
     getColData df' "tachycardia" = some (ColData.numeric (hr.map (geFlag 100))) ∧
     getColData df' "encounter_los_ratio"
       = some (ColData.numeric (List.zipWith ratioCell nenc alos))) ∧
    (∀ i q, cr.get? i = some (some q) →
      (cr.map (gtFlag (3/2))).get? i = some (some (if 3/2 < q then 1 else 0))) ∧
    (∀ i q, bp.get? i = some (some q) →
      (bp.map (geFlag 140)).get? i = some (some (if 140 ≤ q then 1 else 0))) ∧
    (∀ i q, hr.get? i = some (some q) →
      (hr.map (geFlag 100)).get? i = some (some (if 100 ≤ q then 1 else 0))) ∧
    (∀ i q a, nenc.get? i = some (some q) → alos.get? i = some (some a) →
      (List.zipWith ratioCell nenc alos).get? i = some (some (q / losDenom a))) := by
  have heq := add_derived_eq df cr bp hr nenc alos hcr hbp hhr hne hal
  rw [heq] at hok
  have hdf : df' = setCol (setCol (setCol
      (setCol df "high_creatinine" (ColData.numeric (cr.map (gtFlag (3/2)))))
      "high_bp" (ColData.numeric (bp.map (geFlag 140))))
      "tachycardia" (ColData.numeric (hr.map (geFlag 100))))
      "encounter_los_ratio" (ColData.numeric (List.zipWith ratioCell nenc alos)) :=
    (Except.ok.inj hok).symm
  subst hdf
  refine ⟨⟨?_, ?_, ?_, ?_⟩, ?_, ?_, ?_, ?_⟩
  · rw [getColData_setCol_ne _ _ _ _ (by decide), getColData_setCol_ne _ _ _ _ (by decide),
      getColData_setCol_ne _ _ _ _ (by decide), getColData_setCol_self]
  · rw [getColData_setCol_ne _ _ _ _ (by decide), getColData_setCol_ne _ _ _ _ (by decide),
      getColData_setCol_self]
  · rw [getColData_setCol_ne _ _ _ _ (by decide), getColData_setCol_self]
  · rw [getColData_setCol_self]
  · intro i q h
    rw [List.get?_map, h]
    rfl
  · intro i q h
    rw [List.get?_map, h]
    rfl
  · intro i q h
    rw [List.get?_map, h]
    rfl
  · intro i q a hq ha
    rw [get?_zipWith_some ratioCell nenc alos i (some q) (some a) hq ha]
    rfl

/-- The spec's concrete raw row. -/
def dfRow : DataFrame :=
  [("creatinine", ColData.numeric [some 2]),
   ("systolic_bp", ColData.numeric [some 150]),
   ("heart_rate", ColData.numeric [some 105]),
   ("num_encounters", ColData.numeric [some 4]),
   ("avg_los", ColData.numeric [some 2])]

/-- A stand-in for pandas `Series.std()` (external numeric routine). -/
def stdStub : List ℚ → ℚ := fun _ => 1

/-- The frame `add_derived_features` returns on `dfRow`. -/
def dfRowOut : DataFrame :=
  match add_derived_features dfRow with
  | Except.ok d => d
  | Except.error _ => []

/-- Witness for C6 on the spec's row `{creatinine: 2.0, systolic_bp: 150,
heart_rate: 105, num_encounters: 4, avg_los: 2.0}`: flags 1/1/1 and
`encounter_los_ratio ≈ 2.0`. -/
theorem add_derived_features_spec_witness :
    getColData dfRowOut "high_creatinine" = some (ColData.numeric [some 1]) ∧
    getColData dfRowOut "high_bp" = some (ColData.numeric [some 1]) ∧
    getColData dfRowOut "tachycardia" = some (ColData.numeric [some 1]) ∧
    getColData dfRowOut "encounter_los_ratio"
      = some (ColData.numeric [some (4 / losDenom 2)]) ∧
    |4 / losDenom 2 - 2| < (1 : ℚ)/1000000 := by
  obtain ⟨⟨h1, h2, h3, h4⟩, _⟩ := add_derived_features_spec dfRow dfRowOut rfl
    [some 2] [some 150] [some 105] [some 4] [some 2] rfl rfl rfl rfl rfl
  refine ⟨?_, ?_, ?_, ?_, ?_⟩
  · rw [h1]
    norm_num [gtFlag]
  · rw [h2]
    norm_num [geFlag]
  · rw [h3]
    norm_num [geFlag]
  · rw [h4]
    norm_num [ratioCell]
  · rw [show (4 : ℚ) / losDenom 2 - 2 = -(2/2000001) from by norm_num [losDenom]]
    rw [abs_neg, abs_of_pos (by norm_num)]
    norm_num

/-- A table with a partially-null numeric column `x`, an entirely-null
numeric column `z` and a text column `t`. -/
def dfMissW : DataFrame :=
  [("x", ColData.numeric [some 1, none]),
   ("z", ColData.numeric [none]),
   ("t", ColData.text [some "u"])]

/-- Witness for C5: the missing cell of `x` becomes the column median 1,
the all-null column `z` and the text column `t` are untouched. -/
theorem handle_missing_values_spec_witness :
    getColData (handle_missing_values dfMissW) "x"
      = some (ColData.numeric [some 1, some 1]) ∧
    getColData (handle_missing_values dfMissW) "z"
      = some (ColData.numeric [none]) ∧
    getColData (handle_missing_values dfMissW) "t"
      = some (ColData.text [some "u"]) := by
  refine ⟨?_, ?_, ?_⟩
  · obtain ⟨ha, _⟩ := handle_missing_values_spec dfMissW "x"
    obtain ⟨m, hm, hres⟩ := (ha [some 1, none] rfl).1 (by simp)
    have hm' : m = 1 := by
      have h1 : median ([some 1, none].filterMap id) = some 1 := rfl
      rw [h1] at hm
      exact (Option.some.inj hm).symm
    subst hm'
    simpa using hres
  · obtain ⟨ha, _⟩ := handle_missing_values_spec dfMissW "z"
    exact (ha [none] rfl).2 (by simp)
  · obtain ⟨_, hb⟩ := handle_missing_values_spec dfMissW "t"
    exact hb [some "u"] rfl

/-! # Idempotence machinery

After one pass of `handle_missing_values`, every numeric column is either
entirely null or null-free ("settled"); on settled frames both imputation
and re-derivation are no-ops. -/

/-- A column slice is settled when it is entirely null or null-free. -/
def settled (vs : List (Option ℚ)) : Prop :=
  (∀ v ∈ vs, v = none) ∨ (∀ v ∈ vs, v ≠ none)

theorem map_getD_of_no_none (vs : List (Option ℚ)) (m : ℚ)
    (h : ∀ v ∈ vs, v ≠ none) :
    vs.map (fun v => some (v.getD m)) = vs := by
  induction vs with
  | nil => rfl
  | cons v rest ih =>
    cases v with
    | none => exact absurd rfl (h none (List.mem_cons_self _ _))
    | some a =>
      simp only [List.map_cons, Option.getD_some]
      rw [ih (fun v hv => h v (List.mem_cons_of_mem _ hv))]

theorem fillnaMedian_settled (vs : List (Option ℚ)) (h : settled vs) :
    fillnaMedian vs = vs := by
  rcases h with hall | hnone
  · have hnil : vs.filterMap id = [] := (filterMap_id_nil_iff vs).mpr hall
    unfold fillnaMedian
    rw [hnil]
    rfl
  · unfold fillnaMedian
    cases hm : median (vs.filterMap id) with
    | none => rfl
    | some m => exact map_getD_of_no_none vs m hnone

theorem settled_fillnaMedian (vs : List (Option ℚ)) : settled (fillnaMedian vs) := by
  unfold fillnaMedian
  cases hm : median (vs.filterMap id) with
  | none =>
    exact Or.inl ((filterMap_id_nil_iff vs).mp (median_eq_none _ hm))
  | some m =>
    refine Or.inr ?_
    intro v hv
    rcases List.mem_map.mp hv with ⟨a, _, rfl⟩
    exact Option.some_ne_none _

/-- A settled column datum: settled when numeric, vacuous for text. -/
def settledCol : ColData → Prop
  | ColData.numeric vs => settled vs
  | ColData.text _ => True

/-- Every numeric column of the frame is settled. -/
def settledDF (df : DataFrame) : Prop := ∀ p ∈ df, settledCol p.2

theorem settledDF_handle (df : DataFrame) : settledDF (handle_missing_values df) := by
  intro p hp
  unfold handle_missing_values at hp
  rcases List.mem_map.mp hp with ⟨q, _, rfl⟩
  obtain ⟨n, cd⟩ := q
  cases cd with
  | numeric vs => exact settled_fillnaMedian vs
  | text vs => trivial

theorem handle_of_settledDF (df : DataFrame) (h : settledDF df) :
    handle_missing_values df = df := by
  induction df with
  | nil => rfl
  | cons q rest ih =>
    obtain ⟨n, cd⟩ := q
    have hrest : handle_missing_values rest = rest :=
      ih (fun p hp => h p (List.mem_cons_of_mem _ hp))
    cases cd with
    | numeric vs =>
      have hvs : settled vs := h (n, ColData.numeric vs) (List.mem_cons_self _ _)
      simp only [handle_missing_values, List.map_cons] at hrest ⊢
      rw [fillnaMedian_settled vs hvs, hrest]
    | text vs =>
      simp only [handle_missing_values, List.map_cons] at hrest ⊢
      rw [hrest]

theorem mem_setCol (df : DataFrame) (n : String) (cd : ColData)
    (p : String × ColData) (hp : p ∈ setCol df n cd) :
    p = (n, cd) ∨ p ∈ df := by
  induction df with
  | nil =>
    simp only [setCol] at hp
    exact Or.inl (List.mem_singleton.mp hp)
  | cons q rest ih =>
    obtain ⟨m, e⟩ := q
    by_cases hm : m = n
    · subst hm
      simp only [setCol, if_pos rfl] at hp
      rcases List.mem_cons.mp hp with heq | htl
      · exact Or.inl heq
      · exact Or.inr (List.mem_cons_of_mem _ htl)
    · simp only [setCol, if_neg hm] at hp
      rcases List.mem_cons.mp hp with heq | htl
      · exact Or.inr (heq ▸ List.mem_cons_self _ _)
      · rcases ih htl with h1 | h1
        · exact Or.inl h1
        · exact Or.inr (List.mem_cons_of_mem _ h1)

theorem settledDF_setCol (df : DataFrame) (n : String) (cd : ColData)
    (hdf : settledDF df) (hcd : settledCol cd) : settledDF (setCol df n cd) := by
  intro p hp
  rcases mem_setCol df n cd p hp with heq | hmem
  · subst heq
    exact hcd
  · exact hdf p hmem

theorem settled_map_flag (f : Option ℚ → Option ℚ)
    (hf : ∀ v, ∃ q, f v = some q) (l : List (Option ℚ)) : settled (l.map f) := by
  refine Or.inr ?_
  intro v hv
  rcases List.mem_map.mp hv with ⟨a, _, rfl⟩
  obtain ⟨q, hq⟩ := hf a
  rw [hq]
  exact Option.some_ne_none _

theorem zip_ratio_all_none_left (l1 : List (Option ℚ)) :
    ∀ (l2 : List (Option ℚ)), (∀ v ∈ l1, v = none) →
      ∀ v ∈ List.zipWith ratioCell l1 l2, v = none := by
  induction l1 with
  | nil => intro l2 _ v hv; simp at hv
  | cons x xs ih =>
    intro l2 hall v hv
    cases l2 with
    | nil => simp at hv
    | cons y ys =>
      rcases List.mem_cons.mp hv with heq | htl
      · subst heq
        rw [hall x (List.mem_cons_self _ _)]
        cases y <;> rfl
      · exact ih ys (fun v hv => hall v (List.mem_cons_of_mem _ hv)) v htl

theorem zip_ratio_all_none_right (l1 : List (Option ℚ)) :
    ∀ (l2 : List (Option ℚ)), (∀ v ∈ l2, v = none) →
      ∀ v ∈ List.zipWith ratioCell l1 l2, v = none := by
  induction l1 with
  | nil => intro l2 _ v hv; simp at hv
  | cons x xs ih =>
    intro l2 hall v hv
    cases l2 with
    | nil => simp at hv
    | cons y ys =>
      rcases List.mem_cons.mp hv with heq | htl
      · subst heq
        rw [hall y (List.mem_cons_self _ _)]
        cases x <;> rfl
      · exact ih ys (fun v hv => hall v (List.mem_cons_of_mem _ hv)) v htl

theorem zip_ratio_no_none (l1 : List (Option ℚ)) :
    ∀ (l2 : List (Option ℚ)), (∀ v ∈ l1, v ≠ none) → (∀ v ∈ l2, v ≠ none) →
      ∀ v ∈ List.zipWith ratioCell l1 l2, v ≠ none := by
  induction l1 with
  | nil => intro l2 _ _ v hv; simp at hv
  | cons x xs ih =>
    intro l2 h1 h2 v hv
    cases l2 with
    | nil => simp at hv
    | cons y ys =>
      rcases List.mem_cons.mp hv with heq | htl
      · subst heq
        cases x with
        | none => exact absurd rfl (h1 none (List.mem_cons_self _ _))
        | some a =>
          cases y with
          | none => exact absurd rfl (h2 none (List.mem_cons_self _ _))
          | some b => exact Option.some_ne_none _
      · exact ih ys (fun v hv => h1 v (List.mem_cons_of_mem _ hv))
          (fun v hv => h2 v (List.mem_cons_of_mem _ hv)) v htl

theorem settled_zip_ratio (l1 l2 : List (Option ℚ))
    (h1 : settled l1) (h2 : settled l2) :
    settled (List.zipWith ratioCell l1 l2) := by
  rcases h1 with h1 | h1
  · exact Or.inl (zip_ratio_all_none_left l1 l2 h1)
  · rcases h2 with h2 | h2
    · exact Or.inl (zip_ratio_all_none_right l1 l2 h2)
    · exact Or.inr (zip_ratio_no_none l1 l2 h1 h2)

theorem getColData_mem (df : DataFrame) (n : String) (cd : ColData)
    (h : getColData df n = some cd) : (n, cd) ∈ df := by
  induction df with
  | nil => cases h
  | cons q rest ih =>
    obtain ⟨m, e⟩ := q
    by_cases hm : m = n
    · subst hm
      rw [getColData, if_pos rfl] at h
      cases h
      exact List.mem_cons_self _ _
    · rw [getColData, if_neg hm] at h
      exact List.mem_cons_of_mem _ (ih h)

theorem except_bind_ok {α β γ : Type} {e : Except γ α} {f : α → Except γ β} {v : β}
    (h : (e >>= f) = Except.ok v) : ∃ a, e = Except.ok a ∧ f a = Except.ok v := by
  cases e with
  | error err => simp [Bind.bind, Except.bind] at h
  | ok a =>
    refine ⟨a, rfl, ?_⟩
    simpa [Bind.bind, Except.bind] using h

theorem getNumE_ok_getColData (df : DataFrame) (n : String) (vs : List (Option ℚ))
    (h : getNumE df n = Except.ok vs) :
    getColData df n = some (ColData.numeric vs) := by
  unfold getNumE at h
  cases hg : getColData df n with
  | none => rw [hg] at h; cases h
  | some cd =>
    rw [hg] at h
    cases cd with
    | numeric ws =>
      injection h with h'
      subst h'
      rfl
    | text ws => cases h

/-- Successful derivation decomposed: the five raw reads succeed and the
result is the four-fold `setCol` chain. -/
theorem add_derived_ok_decomp (df df' : DataFrame)
    (hok : add_derived_features df = Except.ok df') :
    ∃ cr bp hr nenc alos,
      getColData df "creatinine" = some (ColData.numeric cr) ∧
      getColData df "systolic_bp" = some (ColData.numeric bp) ∧
      getColData df "heart_rate" = some (ColData.numeric hr) ∧
      getColData df "num_encounters" = some (ColData.numeric nenc) ∧
      getColData df "avg_los" = some (ColData.numeric alos) ∧
      df' = setCol (setCol (setCol
        (setCol df "high_creatinine" (ColData.numeric (cr.map (gtFlag (3/2)))))
        "high_bp" (ColData.numeric (bp.map (geFlag 140))))
        "tachycardia" (ColData.numeric (hr.map (geFlag 100))))
        "encounter_los_ratio" (ColData.numeric (List.zipWith ratioCell nenc alos)) := by
  unfold add_derived_features at hok
  obtain ⟨cr, hg1, hok⟩ := except_bind_ok hok
  obtain ⟨bp, hg2, hok⟩ := except_bind_ok hok
  obtain ⟨hr, hg3, hok⟩ := except_bind_ok hok
  obtain ⟨nenc, hg4, hok⟩ := except_bind_ok hok
  obtain ⟨alos, hg5, hok⟩ := except_bind_ok hok
  simp only [pure, Except.pure] at hok
  rw [getNumE_setCol_ne _ _ _ _ (by decide)] at hg2
  rw [getNumE_setCol_ne _ _ _ _ (by decide), getNumE_setCol_ne _ _ _ _ (by decide)] at hg3
  rw [getNumE_setCol_ne _ _ _ _ (by decide), getNumE_setCol_ne _ _ _ _ (by decide),
    getNumE_setCol_ne _ _ _ _ (by decide)] at hg4
  rw [getNumE_setCol_ne _ _ _ _ (by decide), getNumE_setCol_ne _ _ _ _ (by decide),
    getNumE_setCol_ne _ _ _ _ (by decide)] at hg5
  exact ⟨cr, bp, hr, nenc, alos,
    getNumE_ok_getColData _ _ _ hg1, getNumE_ok_getColData _ _ _ hg2,
    getNumE_ok_getColData _ _ _ hg3, getNumE_ok_getColData _ _ _ hg4,
    getNumE_ok_getColData _ _ _ hg5, (Except.ok.inj hok).symm⟩

theorem getColData_settled (df : DataFrame) (n : String) (cd : ColData)
    (hdf : settledDF df) (hg : getColData df n = some cd) : settledCol cd :=
  hdf (n, cd) (getColData_mem df n cd hg)

/-- Derivation preserves settledness (all four derived columns are either
null-free or entirely null). -/
theorem settledDF_add_derived (df df' : DataFrame) (hdf : settledDF df)
    (hok : add_derived_features df = Except.ok df') : settledDF df' := by
  obtain ⟨cr, bp, hr, nenc, alos, _, _, _, hne2, hal, hdfeq⟩ :=
    add_derived_ok_decomp df df' hok
  subst hdfeq
  refine settledDF_setCol _ _ _ (settledDF_setCol _ _ _ (settledDF_setCol _ _ _
    (settledDF_setCol _ _ _ hdf ?_) ?_) ?_) ?_
  · exact settled_map_flag _ (fun v => ⟨_, rfl⟩) cr
  · exact settled_map_flag _ (fun v => ⟨_, rfl⟩) bp
  · exact settled_map_flag _ (fun v => ⟨_, rfl⟩) hr
  · exact settled_zip_ratio nenc alos
      (getColData_settled _ _ _ hdf hne2) (getColData_settled _ _ _ hdf hal)

/-- Re-deriving on an already-derived frame overwrites each derived column
with the identical recomputed values, leaving the frame unchanged. -/
theorem add_derived_stable (df df' : DataFrame)
    (hok : add_derived_features df = Except.ok df') :
    add_derived_features df' = Except.ok df' := by
  obtain ⟨cr, bp, hr, nenc, alos, hcr, hbp, hhr, hne2, hal, hdf⟩ :=
    add_derived_ok_decomp df df' hok
  have hcr' : getColData df' "creatinine" = some (ColData.numeric cr) := by
    rw [hdf, getColData_setCol_ne _ _ _ _ (by decide), getColData_setCol_ne _ _ _ _ (by decide),
      getColData_setCol_ne _ _ _ _ (by decide), getColData_setCol_ne _ _ _ _ (by decide)]
    exact hcr
  have hbp' : getColData df' "systolic_bp" = some (ColData.numeric bp) := by
    rw [hdf, getColData_setCol_ne _ _ _ _ (by decide), getColData_setCol_ne _ _ _ _ (by decide),
      getColData_setCol_ne _ _ _ _ (by decide), getColData_setCol_ne _ _ _ _ (by decide)]
    exact hbp
  have hhr' : getColData df' "heart_rate" = some (ColData.numeric hr) := by
    rw [hdf, getColData_setCol_ne _ _ _ _ (by decide), getColData_setCol_ne _ _ _ _ (by decide),
      getColData_setCol_ne _ _ _ _ (by decide), getColData_setCol_ne _ _ _ _ (by decide)]
    exact hhr
  have hne2' : getColData df' "num_encounters" = some (ColData.numeric nenc) := by
    rw [hdf, getColData_setCol_ne _ _ _ _ (by decide), getColData_setCol_ne _ _ _ _ (by decide),
      getColData_setCol_ne _ _ _ _ (by decide), getColData_setCol_ne _ _ _ _ (by decide)]
    exact hne2
  have hal' : getColData df' "avg_los" = some (ColData.numeric alos) := by
    rw [hdf, getColData_setCol_ne _ _ _ _ (by decide), getColData_setCol_ne _ _ _ _ (by decide),
      getColData_setCol_ne _ _ _ _ (by decide), getColData_setCol_ne _ _ _ _ (by decide)]
    exact hal
  have h1 : getColData df' "high_creatinine"
      = some (ColData.numeric (cr.map (gtFlag (3/2)))) := by
    rw [hdf, getColData_setCol_ne _ _ _ _ (by decide), getColData_setCol_ne _ _ _ _ (by decide),
      getColData_setCol_ne _ _ _ _ (by decide), getColData_setCol_self]
  have h2 : getColData df' "high_bp"
      = some (ColData.numeric (bp.map (geFlag 140))) := by
    rw [hdf, getColData_setCol_ne _ _ _ _ (by decide), getColData_setCol_ne _ _ _ _ (by decide),
      getColData_setCol_self]
  have h3 : getColData df' "tachycardia"
      = some (ColData.numeric (hr.map (geFlag 100))) := by
    rw [hdf, getColData_setCol_ne _ _ _ _ (by decide), getColData_setCol_self]
  have h4 : getColData df' "encounter_los_ratio"
      = some (ColData.numeric (List.zipWith ratioCell nenc alos)) := by
    rw [hdf, getColData_setCol_self]
  rw [add_derived_eq df' cr bp hr nenc alos hcr' hbp' hhr' hne2' hal']
  rw [setCol_of_getColData _ _ _ h1, setCol_of_getColData _ _ _ h2,
    setCol_of_getColData _ _ _ h3, setCol_of_getColData _ _ _ h4]

/-- C7: `prepare_features` (with `normalize=false`) is idempotent — running
it again on its own output changes nothing: imputation finds no remaining
partially-null column, and re-derivation overwrites the derived columns
with identical values. -/
theorem prepare_features_idempotent (std : List ℚ → ℚ) (x y : DataFrame)
    (hok : prepare_features std x false = Except.ok y) :
    prepare_features std y false = Except.ok y := by
  unfold prepare_features at hok ⊢
  obtain ⟨d2, hadd, hok2⟩ := except_bind_ok hok
  have hy : y = d2 := by
    simp only [encode_categoricals, Bool.false_eq_true, if_false, pure, Except.pure] at hok2
    exact (Except.ok.inj hok2).symm
  subst hy
  have hsy : settledDF y := settledDF_add_derived _ _ (settledDF_handle x) hadd
  have hhy : handle_missing_values y = y := handle_of_settledDF y hsy
  have hstab : add_derived_features y = Except.ok y := add_derived_stable _ _ hadd
  rw [hhy]
  simp only [Bind.bind, Except.bind, hstab, encode_categoricals, Bool.false_eq_true,
    if_false, pure, Except.pure]

/-- The frame `prepare_features` returns on the concrete raw row. -/
def prepOnceW : DataFrame :=
  match prepare_features stdStub dfRow false with
  | Except.ok d => d
  | Except.error _ => []

/-- Witness for C7: a second `prepare_features` pass on the concrete
prepared frame returns it unchanged. -/
theorem prepare_features_idempotent_witness :
    prepare_features stdStub prepOnceW false = Except.ok prepOnceW :=
  prepare_features_idempotent stdStub dfRow prepOnceW rfl

/-! # Heap lemmas for the frame property -/

theorem store_get_set_ne (s : Store) (r r' : ℕ) (d : DataFrame) (h : r ≠ r') :
    (s.set r' d).get r = s.get r := by
  unfold Store.set Store.get
  rw [List.getD_eq_get?, List.getD_eq_get?, List.get?_set_ne _ _ (Ne.symm h)]

theorem store_get_append (s : Store) (r : ℕ) (d : DataFrame)
    (h : r < s.dfs.length) :
    (Store.mk (s.dfs ++ [d])).get r = s.get r := by
  unfold Store.get
  rw [List.getD_eq_get?, List.getD_eq_get?, List.get?_append h]

/-- C9: `prepare_features` never mutates the caller's table: whatever the
outcome of the call, the object the caller passed in holds exactly the same
value afterwards, because the function works on a fresh `df.copy()`. -/
theorem prepare_features_preserves_input (std : List ℚ → ℚ) (s : Store) (r : ℕ)
    (b : Bool) (h : r < s.dfs.length) (s' : Store) (r' : ℕ)
    (hok : prepare_features_st std s r b = Except.ok (s', r')) :
    s'.get r = s.get r := by
  have hne : r ≠ s.dfs.length := Nat.ne_of_lt h
  unfold prepare_features_st at hok
  simp only [Store.alloc, handle_missing_values_st, add_derived_features_st,
    encode_categoricals_st, normalize_features_st, Bind.bind, Except.bind] at hok
  cases hadd : add_derived_features
      ((Store.set ⟨s.dfs ++ [s.get r]⟩ s.dfs.length
        (handle_missing_values ((Store.mk (s.dfs ++ [s.get r])).get s.dfs.length))).get
        s.dfs.length) with
  | error e =>
    rw [hadd] at hok
    cases hok
  | ok d2 =>
    rw [hadd] at hok
    cases b with
    | false =>
      simp only [Bool.false_eq_true, if_false, pure, Except.pure, Except.ok.injEq,
        Prod.mk.injEq] at hok
      obtain ⟨h1, _⟩ := hok
      subst h1
      rw [store_get_set_ne _ _ _ _ hne, store_get_set_ne _ _ _ _ hne,
        store_get_append s r _ h]
    | true =>
      simp only [eq_self_iff_true, if_true, pure, Except.pure, Except.ok.injEq,
        Prod.mk.injEq] at hok
      obtain ⟨h1, _⟩ := hok
      subst h1
      rw [store_get_set_ne _ _ _ _ hne, store_get_set_ne _ _ _ _ hne,
        store_get_set_ne _ _ _ _ hne, store_get_append s r _ h]

/-- A one-object heap holding the spec's raw row. -/
def storeW : Store := ⟨[dfRow]⟩

/-- The heap and reference `prepare_features` returns on `storeW`. -/
def prepOutW : Store × ℕ :=
  match prepare_features_st stdStub storeW 0 false with
  | Except.ok p => p
  | Except.error _ => (⟨[]⟩, 0)

/-- Witness for C9: after a successful `prepare_features` call the caller's
object is untouched. -/
theorem prepare_features_preserves_input_witness :
    prepOutW.1.get 0 = storeW.get 0 :=
  prepare_features_preserves_input stdStub storeW 0 false Nat.one_pos
    prepOutW.1 prepOutW.2 rfl

/-! # Drift Detector lemmas -/

/-- Every entry the report loop records carries the OR-rule verdict computed
from its own `ks_pvalue` and `psi` fields. -/
theorem driftLoop_entry_dd (ks : List ℚ → List ℚ → ℚ × ℚ) (log : ℚ → ℚ)
    (current_df : DataFrame) :
    ∀ (l : List (String × List (Option ℚ))) (report : List (String × DriftEntry)),
      driftLoop ks log current_df l = Except.ok report →
      ∀ col e, (col, e) ∈ report →
        e.drift_detected = (decide (e.ks_pvalue < 1/20) || decide (e.psi > 1/10)) := by
  intro l
  induction l with
  | nil =>
    intro report h col e hmem
    simp only [driftLoop, Except.ok.injEq] at h
    subst h
    simp at hmem
  | cons hd tl ih =>
    intro report h col e hmem
    obtain ⟨c, vs⟩ := hd
    rw [driftLoop] at h
    cases hg : getNumE current_df c with
    | error err => rw [hg] at h; simp [Bind.bind, Except.bind] at h
    | ok curRaw =>
      rw [hg] at h
      cases hr : driftLoop ks log current_df tl with
      | error err => rw [hr] at h; simp [Bind.bind, Except.bind] at h
      | ok rep =>
        rw [hr] at h
        simp only [Bind.bind, Except.bind] at h
        by_cases hc : 0 < (vs.filterMap id).length ∧ 0 < (curRaw.filterMap id).length
        · rw [if_pos hc] at h
          simp only [pure, Except.pure, Except.ok.injEq] at h
          subst h
          rcases List.mem_cons.mp hmem with heq | htl
          · cases heq
            rfl
          · exact ih rep hr col e htl
        · rw [if_neg hc] at h
          simp only [pure, Except.pure, Except.ok.injEq] at h
          subst h
          exact ih rep hr col e hmem

/-! # Claim theorems -/

/-- C1: for every column evaluated by `detect_drift`, the recorded verdict
satisfies `drift_detected = (ks_pvalue < 0.05) OR (psi > 0.1)`; in
particular a column with `ks_pvalue = 0.04` and `psi = 0.02` gets verdict
`true`, and one with `ks_pvalue = 0.9` and `psi = 0.05` gets `false`. -/
theorem drift_verdict_or_rule (ks : List ℚ → List ℚ → ℚ × ℚ) (log : ℚ → ℚ)
    (reference_df current_df : DataFrame) (report : List (String × DriftEntry))
    (hok : detect_drift ks log reference_df current_df = Except.ok report)
    (col : String) (e : DriftEntry) (hmem : (col, e) ∈ report) :
    (e.drift_detected = true ↔ (e.ks_pvalue < 1/20 ∨ e.psi > 1/10)) ∧
    (e.ks_pvalue = 1/25 → e.psi = 1/50 → e.drift_detected = true) ∧
    (e.ks_pvalue = 9/10 → e.psi = 1/20 → e.drift_detected = false) := by
  have hdd := driftLoop_entry_dd ks log current_df (numericCols reference_df) report hok col e hmem
  refine ⟨?_, ?_, ?_⟩
  · rw [hdd]
    simp [decide_eq_true_eq]
  · intro h1 h2
    rw [hdd, h1, h2]
    norm_num
  · intro h1 h2
    rw [hdd, h1, h2]
    norm_num

/-- Witness for C1 at a concrete run of the Drift Detector. -/
theorem drift_verdict_or_rule_witness :
    (entryW.drift_detected = true ↔ (entryW.ks_pvalue < 1/20 ∨ entryW.psi > 1/10)) ∧
    (entryW.ks_pvalue = 1/25 → entryW.psi = 1/50 → entryW.drift_detected = true) ∧
    (entryW.ks_pvalue = 9/10 → entryW.psi = 1/20 → entryW.drift_detected = false) :=
  drift_verdict_or_rule ksStub logStub refW refW reportW rfl "a" entryW
    (by rw [show reportW = [("a", entryW)] from rfl]; exact List.mem_cons_self _ _)

/-- C3 counterexample: on two tables that share zero numeric columns
(`refNoNum` has only a text column), `detect_drift` returns an (empty)
report instead of raising a `SchemaError` — indeed no `SchemaError` exists
anywhere in the module. -/
theorem detect_drift_no_numeric_cex :
    detect_drift ksStub logStub refNoNum curNoNum = Except.ok [] := rfl

/-- C3 (amended): when the reference table has no numeric columns,
`detect_drift` completes normally and returns an empty report; it raises no
error (in particular no `SchemaError`). -/
theorem detect_drift_no_numeric_empty_report (ks : List ℚ → List ℚ → ℚ × ℚ)
    (log : ℚ → ℚ) (reference_df current_df : DataFrame)
    (h : numericCols reference_df = []) :
    detect_drift ks log reference_df current_df = Except.ok [] := by
  unfold detect_drift
  rw [h]
  rfl

/-- Witness for the amended C3. -/
theorem detect_drift_no_numeric_empty_report_witness :
    detect_drift ksStub logStub [("name", ColData.text [some "y"])] [] = Except.ok [] :=
  detect_drift_no_numeric_empty_report ksStub logStub
    [("name", ColData.text [some "y"])] [] rfl

/-- C2 counterexample: the numeric reference column `a` is absent from the
current table, and `detect_drift` does not omit the column — a `KeyError`
propagates out of the call (raised by `current_df[col]` before the
usable-data check). -/
theorem detect_drift_absent_col_cex :
    detect_drift ksStub logStub refAbsent curAbsent
      = Except.error (PipeErr.keyError "a") := rfl

/-- When every listed column is present as numeric in the current frame,
the report loop succeeds, and a column name appears in the report exactly
when some listed occurrence of it has usable (non-null) data on both
sides. -/
theorem driftLoop_skip_iff (ks : List ℚ → List ℚ → ℚ × ℚ) (log : ℚ → ℚ)
    (current_df : DataFrame) :
    ∀ (l : List (String × List (Option ℚ))),
      (∀ col vs, (col, vs) ∈ l →
        ∃ ws, getColData current_df col = some (ColData.numeric ws)) →
      ∃ report, driftLoop ks log current_df l = Except.ok report ∧
        ∀ col : String,
          (∃ e, (col, e) ∈ report) ↔
            ∃ vs ws, (col, vs) ∈ l ∧
              getColData current_df col = some (ColData.numeric ws) ∧
              vs.filterMap id ≠ [] ∧ ws.filterMap id ≠ [] := by
  intro l
  induction l with
  | nil =>
    intro _
    exact ⟨[], rfl, by simp⟩
  | cons hd tl ih =>
    intro hpres
    obtain ⟨c, vs⟩ := hd
    obtain ⟨ws, hws⟩ := hpres c vs (List.mem_cons_self _ _)
    obtain ⟨rep, hrep, hiff⟩ :=
      ih (fun col vs' hmem => hpres col vs' (List.mem_cons_of_mem _ hmem))
    have hget : getNumE current_df c = Except.ok ws := by
      unfold getNumE
      rw [hws]
    by_cases hc : 0 < (vs.filterMap id).length ∧ 0 < (ws.filterMap id).length
    · refine ⟨(c, ⟨(ks (vs.filterMap id) (ws.filterMap id)).1,
        (ks (vs.filterMap id) (ws.filterMap id)).2,
        psi log (vs.filterMap id) (ws.filterMap id) 10,
        decide ((ks (vs.filterMap id) (ws.filterMap id)).2 < 1/20)
          || decide (psi log (vs.filterMap id) (ws.filterMap id) 10 > 1/10)⟩) :: rep,
        ?_, ?_⟩
      · rw [driftLoop, hget]
        simp only [Bind.bind, Except.bind, hrep]
        rw [if_pos hc]
        rfl
      · intro col
        constructor
        · rintro ⟨e, he⟩
          rcases List.mem_cons.mp he with heq | htl
          · have hcol : col = c := congrArg Prod.fst heq
            subst hcol
            exact ⟨vs, ws, List.mem_cons_self _ _, hws,
              List.length_pos.mp hc.1, List.length_pos.mp hc.2⟩
          · obtain ⟨vs', ws', hmem', hget', hne1, hne2⟩ := hiff col |>.mp ⟨e, htl⟩
            exact ⟨vs', ws', List.mem_cons_of_mem _ hmem', hget', hne1, hne2⟩
        · rintro ⟨vs', ws', hmem', hget', hne1, hne2⟩
          rcases List.mem_cons.mp hmem' with heq | htl
          · have hcol : col = c := congrArg Prod.fst heq
            subst hcol
            exact ⟨_, List.mem_cons_self _ _⟩
          · obtain ⟨e, he⟩ := (hiff col).mpr ⟨vs', ws', htl, hget', hne1, hne2⟩
            exact ⟨e, List.mem_cons_of_mem _ he⟩
    · refine ⟨rep, ?_, ?_⟩
      · rw [driftLoop, hget]
        simp only [Bind.bind, Except.bind, hrep]
        rw [if_neg hc]
        rfl
      · intro col
        constructor
        · intro h
          obtain ⟨vs', ws', hmem', hget', hne1, hne2⟩ := (hiff col).mp h
          exact ⟨vs', ws', List.mem_cons_of_mem _ hmem', hget', hne1, hne2⟩
        · rintro ⟨vs', ws', hmem', hget', hne1, hne2⟩
          rcases List.mem_cons.mp hmem' with heq | htl
          · obtain ⟨hcol, hvs⟩ := Prod.mk.injEq .. ▸ heq
            subst hcol
            subst hvs
            rw [hws] at hget'
            have hws' : ws' = ws := by
              cases hget'
              rfl
            subst hws'
            exact absurd ⟨List.length_pos.mpr hne1, List.length_pos.mpr hne2⟩ hc
          · exact (hiff col).mpr ⟨vs', ws', htl, hget', hne1, hne2⟩

/-- C2 (amended): when every numeric column of the reference table is
present as a numeric column of the current table, `detect_drift` raises
nothing and returns a report in which a column appears exactly when both
sides still have data after dropping missing values — columns entirely
null on either side are omitted, the rest are evaluated.  (A numeric
reference column *absent* from the current table instead makes a
`KeyError` propagate — see the counterexample.) -/
theorem detect_drift_skips_unusable (ks : List ℚ → List ℚ → ℚ × ℚ) (log : ℚ → ℚ)
    (reference_df current_df : DataFrame)
    (hpres : ∀ col vs, (col, vs) ∈ numericCols reference_df →
      ∃ ws, getColData current_df col = some (ColData.numeric ws)) :
    ∃ report, detect_drift ks log reference_df current_df = Except.ok report ∧
      ∀ col : String,
        (∃ e, (col, e) ∈ report) ↔
          ∃ vs ws, (col, vs) ∈ numericCols reference_df ∧
            getColData current_df col = some (ColData.numeric ws) ∧
            vs.filterMap id ≠ [] ∧ ws.filterMap id ≠ [] :=
  driftLoop_skip_iff ks log current_df (numericCols reference_df) hpres

/-- Witness for the amended C2: reference columns `a` (usable) and `b`
(entirely null in the current table), which must be skipped while `a` is
still evaluated. -/
theorem detect_drift_skips_unusable_witness :
    ∃ report, detect_drift ksStub logStub
        [("a", ColData.numeric [some 1]), ("b", ColData.numeric [some 2])]
        [("a", ColData.numeric [some 2]), ("b", ColData.numeric [none])]
        = Except.ok report ∧
      ∀ col : String,
        (∃ e, (col, e) ∈ report) ↔
          ∃ vs ws, (col, vs) ∈ numericCols
              [("a", ColData.numeric [some 1]), ("b", ColData.numeric [some 2])] ∧
            getColData [("a", ColData.numeric [some 2]), ("b", ColData.numeric [none])] col
              = some (ColData.numeric ws) ∧
            vs.filterMap id ≠ [] ∧ ws.filterMap id ≠ [] :=
  detect_drift_skips_unusable ksStub logStub
    [("a", ColData.numeric [some 1]), ("b", ColData.numeric [some 2])]
    [("a", ColData.numeric [some 2]), ("b", ColData.numeric [none])]
    (by
      intro col vs h
      simp only [numericCols, List.filterMap, List.mem_cons] at h
      rcases h with h | h | h
      · cases h
        exact ⟨[some 2], rfl⟩
      · cases h
        exact ⟨[none], rfl⟩
      · simp at h)

/-! # PSI sign lemmas (C4, C8)

The smoothing constant is added *inside* the log argument
(`np.log((expected_percents / actual_percents) + 1e-6)`), so a bucket whose
proportion ratio sits within about `1e-6` below 1 contributes a negative
term; with unequal sample sizes this makes the whole PSI negative.  With
equal (moderately sized) samples every term is non-negative. -/

/-- 20-element expected sample: two values in each of the ten buckets of
its own range `[0, 10]`. -/
def psiExpCE : List ℚ :=
  [0, 1/2, 1, 3/2, 2, 5/2, 3, 7/2, 4, 9/2,
   5, 11/2, 6, 13/2, 7, 15/2, 8, 17/2, 37/4, 10]

/-- 10-element actual sample: one value in each of those buckets. -/
def psiActCE : List ℚ :=
  [1/2, 3/2, 5/2, 7/2, 9/2, 11/2, 13/2, 15/2, 17/2, 19/2]

/-- For any logarithm that is positive beyond 1 (as `np.log` is), the PSI of
the (2 expected, 1 actual)-per-bucket pair is negative: every bucket has
proportion ratio just below 1, pushed just above 1 by the `+1e-6` inside
the log. -/
theorem psi_cex_neg_general (log : ℚ → ℚ)
    (hpos : ∀ x : ℚ, 1 < x → 0 < log x) :
    psi log psiExpCE psiActCE 10 < 0 := by
  have hK : 0 < log (6666677333340666667 / 6666673666667000000 : ℚ) :=
    hpos _ (by norm_num)
  norm_num [psi, psiExpCE, psiActCE, histRange, histCounts,
    List.range_succ, List.filter]
  nlinarith [mul_pos (show (0:ℚ) < 3000000 / 66666676666667 by norm_num) hK]

/-- Single smoothed PSI summand with a common denominator: non-negative
whenever the actual-side count is at most 999999. -/
theorem psi_term_nonneg (log : ℚ → ℚ)
    (hpos : ∀ x : ℚ, 1 ≤ x → 0 ≤ log x)
    (hneg : ∀ x : ℚ, 0 < x → x ≤ 1 → log x ≤ 0)
    (N ce ca : ℕ) (hca : ca ≤ 999999) :
    0 ≤ (((ce : ℚ) + 1/1000000) / ((N : ℚ) + 1/1000000)
          - ((ca : ℚ) + 1/1000000) / ((N : ℚ) + 1/1000000))
        * log ((((ce : ℚ) + 1/1000000) / ((N : ℚ) + 1/1000000))
          / (((ca : ℚ) + 1/1000000) / ((N : ℚ) + 1/1000000)) + 1/1000000) := by
  have hu : (0:ℚ) < (ce : ℚ) + 1/1000000 := by positivity
  have hv : (0:ℚ) < (ca : ℚ) + 1/1000000 := by positivity
  have hw : (0:ℚ) < (N : ℚ) + 1/1000000 := by positivity
  have harg : (((ce : ℚ) + 1/1000000) / ((N : ℚ) + 1/1000000))
      / (((ca : ℚ) + 1/1000000) / ((N : ℚ) + 1/1000000))
      = ((ce : ℚ) + 1/1000000) / ((ca : ℚ) + 1/1000000) := by
    have hvne : ((ca:ℚ) + 1/1000000) ≠ 0 := ne_of_gt hv
    have hwne : ((N:ℚ) + 1/1000000) ≠ 0 := ne_of_gt hw
    field_simp
  rcases Nat.lt_trichotomy ce ca with hlt | heq | hgt
  · have hce : (ce : ℚ) + 1 ≤ (ca : ℚ) := by exact_mod_cast hlt
    have hca' : (ca : ℚ) ≤ 999999 := by exact_mod_cast hca
    have hterm1 : ((ce : ℚ) + 1/1000000) / ((N : ℚ) + 1/1000000)
        - ((ca : ℚ) + 1/1000000) / ((N : ℚ) + 1/1000000) ≤ 0 := by
      rw [div_sub_div_same]
      apply div_nonpos_of_nonpos_of_nonneg _ (le_of_lt hw)
      linarith
    have hterm2 : log ((((ce : ℚ) + 1/1000000) / ((N : ℚ) + 1/1000000))
        / (((ca : ℚ) + 1/1000000) / ((N : ℚ) + 1/1000000)) + 1/1000000) ≤ 0 := by
      rw [harg]
      have h1 : ((ce:ℚ) + 1/1000000) / ((ca:ℚ) + 1/1000000) ≤ 1 - 1/1000000 := by
        rw [div_le_iff hv]
        nlinarith
      apply hneg
      · positivity
      · linarith
    have hprod := mul_nonneg (neg_nonneg.mpr hterm1) (neg_nonneg.mpr hterm2)
    rwa [neg_mul_neg] at hprod
  · subst heq
    rw [sub_self, zero_mul]
  · have hge : (ca : ℚ) + 1 ≤ (ce : ℚ) := by exact_mod_cast hgt
    apply mul_nonneg
    · rw [div_sub_div_same]
      apply div_nonneg _ (le_of_lt hw)
      linarith
    · rw [harg]
      have h1 : (1:ℚ) ≤ ((ce:ℚ) + 1/1000000) / ((ca:ℚ) + 1/1000000) :=
        (one_le_div hv).mpr (by linarith)
      apply hpos
      linarith

theorem foldr_add_nonneg (l : List ℚ) (h : ∀ x ∈ l, 0 ≤ x) :
    0 ≤ l.foldr (· + ·) 0 := by
  induction l with
  | nil => simp
  | cons x xs ih =>
    simp only [List.foldr_cons]
    exact add_nonneg (h x (List.mem_cons_self _ _))
      (ih (fun y hy => h y (List.mem_cons_of_mem _ hy)))

theorem psi_sum_nonneg_aux (log : ℚ → ℚ)
    (hpos : ∀ x : ℚ, 1 ≤ x → 0 ≤ log x)
    (hneg : ∀ x : ℚ, 0 < x → x ≤ 1 → log x ≤ 0) (N : ℕ) :
    ∀ (ec ac : List ℕ), (∀ c ∈ ac, c ≤ 999999) →
      0 ≤ (List.zipWith (fun e a => (e - a) * log (e / a + 1/1000000))
        (ec.map (fun c : ℕ => ((c : ℚ) + 1/1000000) / ((N : ℚ) + 1/1000000)))
        (ac.map (fun c : ℕ => ((c : ℚ) + 1/1000000) / ((N : ℚ) + 1/1000000)))).foldr
          (· + ·) 0 := by
  intro ec
  induction ec with
  | nil =>
    intro ac _
    simp
  | cons e es ih =>
    intro ac h
    cases ac with
    | nil => simp
    | cons a as =>
      simp only [List.map_cons, List.zipWith_cons_cons, List.foldr_cons]
      exact add_nonneg
        (psi_term_nonneg log hpos hneg N e a (h a (List.mem_cons_self _ _)))
        (ih as (fun c hc => h c (List.mem_cons_of_mem _ hc)))

theorem histCounts_le (xs : List ℚ) (lo hi : ℚ) (b : ℕ) :
    ∀ c ∈ histCounts xs lo hi b, c ≤ xs.length := by
  intro c hc
  unfold histCounts at hc
  rcases List.mem_map.mp hc with ⟨i, _, rfl⟩
  exact List.length_filter_le _ _

/-- C4 counterexample: with 20 expected values and 10 actual values laid
out two-vs-one in every bucket, the PSI of the source's formula is
strictly negative (the claim's non-negativity fails).  `logStub` has the
sign behaviour of `np.log` (zero at 1, positive above, negative below),
and `psi_cex_neg_general` shows the sign of this PSI is the same for every
such logarithm. -/
theorem psi_nonneg_cex :
    psiExpCE ≠ [] ∧ psiActCE ≠ [] ∧ psi logStub psiExpCE psiActCE 10 < 0 :=
  ⟨by simp [psiExpCE], by simp [psiActCE],
    psi_cex_neg_general logStub (fun x hx => by
      simp only [logStub]
      linarith)⟩

/-- C4 (amended): the PSI the source computes is non-negative whenever the
two samples have the same length (at most 999999) — for any logarithm with
the sign behaviour of `np.log`.  With unequal sample sizes the smoothing
constant inside the log argument can flip single terms, and the whole sum,
negative. -/
theorem psi_nonneg_equal_sizes (log : ℚ → ℚ)
    (hpos : ∀ x : ℚ, 1 ≤ x → 0 ≤ log x)
    (hneg : ∀ x : ℚ, 0 < x → x ≤ 1 → log x ≤ 0)
    (expected actual : List ℚ) (_hexp : expected ≠ [])
    (hlen : actual.length = expected.length) (hbound : actual.length ≤ 999999) :
    0 ≤ psi log expected actual 10 := by
  simp only [psi]
  have hcast : ((actual.length : ℕ) : ℚ) = ((expected.length : ℕ) : ℚ) := by
    exact_mod_cast hlen
  rw [hcast]
  apply psi_sum_nonneg_aux log hpos hneg expected.length
  intro c hc
  exact le_trans (histCounts_le actual _ _ _ c hc) hbound

/-- Witness for the amended C4 at two identical 5-element samples. -/
theorem psi_nonneg_equal_sizes_witness :
    0 ≤ psi logStub [1, 2, 3, 4, 5] [1, 2, 3, 4, 5] 10 :=
  psi_nonneg_equal_sizes logStub
    (fun x hx => by simp only [logStub]; linarith)
    (fun x hx1 hx2 => by simp only [logStub]; linarith)
    [1, 2, 3, 4, 5] [1, 2, 3, 4, 5] (by simp) rfl (by norm_num)

/-- C8: PSI is asymmetric — for any logarithm that is negative on (0, 1)
(as `np.log` is), the samples `A = [0, 1]` and `B = [0, 3]` give
`psi A B ≠ psi B A`: bucket edges come from the reference side only, so
reversing the roles re-buckets the data. -/
theorem psi_asymmetric (log : ℚ → ℚ)
    (hneg : ∀ x : ℚ, 0 < x → x < 1 → log x < 0) :
    ∃ A B : List ℚ, psi log A B 10 ≠ psi log B A 10 := by
  refine ⟨[0, 1], [0, 3], ?_⟩
  have hk : log (2000001/1000001000000 : ℚ) < 0 := hneg _ (by norm_num) (by norm_num)
  have hAB : psi log [0, 1] [0, 3] 10 - psi log [0, 3] [0, 1] 10
      = (1000000/2000001 : ℚ) * log (2000001/1000001000000) := by
    simp only [psi, histRange, histCounts, List.range_succ]
    norm_num [List.filter]
  intro h
  rw [h, sub_self] at hAB
  have hlt : (1000000/2000001 : ℚ) * log (2000001/1000001000000) < 0 :=
    mul_neg_of_pos_of_neg (by norm_num) hk
  rw [← hAB] at hlt
  exact lt_irrefl 0 hlt

/-- Witness for C8 at the concrete logarithm stand-in. -/
theorem psi_asymmetric_witness :
    ∃ A B : List ℚ, psi logStub A B 10 ≠ psi logStub B A 10 :=
  psi_asymmetric logStub (fun x hx1 hx2 => by simp only [logStub]; linarith)

/-- C10: for any row with `avg_los = a ≥ 0` and any `num_encounters = n`,
the ratio denominator `avg_los + 1e-6` is strictly positive, so the
`encounter_los_ratio` cell is the well-defined value `n / (a + 1e-6)` with
no division by zero. -/
theorem encounter_los_ratio_denom_pos (n a : ℚ) (h : 0 ≤ a) :
    0 < losDenom a ∧ ratioCell (some n) (some a) = some (n / losDenom a) := by
  constructor
  · unfold losDenom
    linarith
  · rfl

/-- Witness for C10 at `num_encounters = 4`, `avg_los = 0`. -/
theorem encounter_los_ratio_denom_pos_witness :
    0 < losDenom 0 ∧ ratioCell (some 4) (some 0) = some (4 / losDenom 0) :=
  encounter_los_ratio_denom_pos 4 0 (by norm_num)

end Risk
